import Mathlib

/-!
Verification of the subscription-manager caching/synchronization core.

This file gives a shallow embedding of the three-way-merge engine
(`syspurpose/src/syspurpose/files.py` and `syspurpose/src/syspurpose/sync.py`),
the edit-oriented stores (`SyspurposeStore`, `SyncedStore`), and the push/pull
cache engines (`src/subscription_manager/cache.py`), together with theorems
settling the specification's claims about them.

JSON scalar-or-list values are modelled by `Val` (Python `None` is
`Val.vnull`), and a JSON object (Python `dict`) by an association list
`Dict α`; `Dict.lookup` is Python `key in d` / `d[key]` and `Rec.get` is
Python `d.get(key)`, whose default `None` makes an absent key
indistinguishable from a key stored as `null`.
-/

set_option autoImplicit false

/-- A JSON scalar; `snull` models Python `None` inside a list. -/
inductive Scalar where
  | snull
  | sstr (s : String)
  | sint (n : Int)
  | sbool (b : Bool)
deriving Repr, DecidableEq

/-- A JSON-serializable record value: a scalar or an ordered list of
scalars; `vnull` models Python `None`. -/
inductive Val where
  | vnull
  | vstr (s : String)
  | vint (n : Int)
  | vbool (b : Bool)
  | vlist (xs : List Scalar)
deriving Repr, DecidableEq

/-- A flat mapping with string keys: Python `dict` modelled as an
association list (keys are unique in every record the code builds). -/
abbrev Dict (α : Type) := List (String × α)

namespace Dict

variable {α : Type}

/-- Python `d[key]` / `key in d`: first binding of `key`, if any. -/
def lookup (r : Dict α) (k : String) : Option α :=
  match r with
  | [] => none
  | p :: rest => if p.1 = k then some p.2 else lookup rest k

/-- Python `dict` assignment `d[key] = v`: replace the binding or append it. -/
def set (r : Dict α) (k : String) (v : α) : Dict α :=
  match r with
  | [] => [(k, v)]
  | p :: rest => if p.1 = k then (k, v) :: rest else p :: set rest k v

/-- Python `d.pop(key, None)`'s removal effect: drop bindings of `key`. -/
def eraseKey (r : Dict α) (k : String) : Dict α :=
  match r with
  | [] => []
  | p :: rest => if p.1 = k then eraseKey rest k else p :: eraseKey rest k

/-- The list of keys of a record (Python `d.keys()`). -/
def keys (r : Dict α) : List String :=
  r.map Prod.fst

/-- Two records are equivalent when they agree on every lookup; this is
Python `dict` equality (key order is irrelevant). -/
def Equiv (a b : Dict α) : Prop :=
  ∀ k, lookup a k = lookup b k

/-- Executable test deciding `Dict.Equiv`; this is how Python `dict`
equality `d1 == d2` is evaluated in closed computations below. -/
def beqv [DecidableEq α] (a b : Dict α) : Bool :=
  (keys a ++ keys b).all (fun k => decide (lookup a k = lookup b k))

theorem lookup_append (xs ys : Dict α) (k : String) :
    lookup (xs ++ ys) k = ((lookup xs k).orElse (fun _ => lookup ys k)) := by
  induction xs with
  | nil => simp [lookup]
  | cons p rest ih =>
      by_cases h : p.1 = k <;> simp [lookup, h, ih]

theorem lookup_eq_none_of_not_mem_keys {r : Dict α} {k : String}
    (h : k ∉ keys r) : lookup r k = none := by
  induction r with
  | nil => rfl
  | cons p rest ih =>
      rw [keys, List.map_cons, List.mem_cons] at h
      push_neg at h
      rw [lookup, if_neg (fun hh => h.1 hh.symm)]
      exact ih h.2

theorem mem_keys_of_lookup_isSome {r : Dict α} {k : String}
    (h : (lookup r k).isSome) : k ∈ keys r := by
  by_contra hk
  rw [lookup_eq_none_of_not_mem_keys hk] at h
  simp at h

theorem lookup_set_self (r : Dict α) (k : String) (v : α) :
    lookup (set r k v) k = some v := by
  induction r with
  | nil => simp [set, lookup]
  | cons p rest ih =>
      by_cases h : p.1 = k <;> simp [set, h, lookup, ih]

theorem lookup_set_other (r : Dict α) (k k' : String) (v : α) (h : k ≠ k') :
    lookup (set r k v) k' = lookup r k' := by
  induction r with
  | nil => simp [set, lookup, h]
  | cons p rest ih =>
      by_cases hp : p.1 = k
      · rw [set, if_pos hp, lookup, if_neg h, lookup, if_neg (fun e => h (hp.symm.trans e))]
      · rw [set, if_neg hp]
        by_cases hk : p.1 = k'
        · rw [lookup, if_pos hk, lookup, if_pos hk]
        · rw [lookup, if_neg hk, lookup, if_neg hk, ih]

theorem lookup_eraseKey_self (r : Dict α) (k : String) :
    lookup (eraseKey r k) k = none := by
  induction r with
  | nil => rfl
  | cons p rest ih =>
      by_cases h : p.1 = k
      · rw [eraseKey, if_pos h, ih]
      · rw [eraseKey, if_neg h, lookup, if_neg h, ih]

theorem lookup_eraseKey_other (r : Dict α) (k k' : String) (h : k ≠ k') :
    lookup (eraseKey r k) k' = lookup r k' := by
  induction r with
  | nil => rfl
  | cons p rest ih =>
      by_cases hp : p.1 = k
      · rw [eraseKey, if_pos hp, ih, lookup, if_neg (fun e => h (hp.symm.trans e))]
      · rw [eraseKey, if_neg hp]
        by_cases hk : p.1 = k'
        · rw [lookup, if_pos hk, lookup, if_pos hk]
        · rw [lookup, if_neg hk, lookup, if_neg hk, ih]

theorem beqv_iff [DecidableEq α] (a b : Dict α) : beqv a b = true ↔ Equiv a b := by
  constructor
  · intro h k
    by_cases ha : k ∈ keys a
    · have := List.all_eq_true.mp h k (List.mem_append_left _ ha)
      simpa using this
    · by_cases hb : k ∈ keys b
      · have := List.all_eq_true.mp h k (List.mem_append_right _ hb)
        simpa using this
      · rw [lookup_eq_none_of_not_mem_keys ha, lookup_eq_none_of_not_mem_keys hb]
  · intro h
    refine List.all_eq_true.mpr (fun k _ => ?_)
    simpa using h k

end Dict

/-- A flat record of JSON values, the type `three_way_merge` and the stores
operate on. -/
abbrev Rec := Dict Val

namespace Rec

/-- Python `d.get(key)`: value at `key`, defaulting to `None` (`vnull`). -/
def get (r : Rec) (k : String) : Val :=
  (Dict.lookup r k).getD .vnull

end Rec

/-! ## The two copies of the change-detection rule

`files.py` (`detect_changed`, with the `source` parameter giving the side
being evaluated) and `sync.py` (`detect_changed`, without it). -/

namespace Files

/-- Embeds `files.detect_changed(base, other, key, source)`: a key absent
from `other` counts as unchanged unless `source == "local"`; otherwise compare
`base.get(key)` with `other.get(key)`. -/
def detect_changed (base other : Rec) (key : String) (source : String) : Bool :=
  if Dict.lookup other key = none ∧ source ≠ "local" then false
  else decide (Rec.get base key ≠ Rec.get other key)

end Files

namespace Sync

/-- Embeds `sync.detect_changed(base, other, key)`: a key absent from `other`
always counts as unchanged; otherwise compare via `.get`. -/
def detect_changed (base other : Rec) (key : String) : Bool :=
  if Dict.lookup other key = none then false
  else decide (Rec.get base key ≠ Rec.get other key)

end Sync

example : Files.detect_changed [("k", .vstr "v")] [] "k" "local" = true := by decide
example : Files.detect_changed [("k", .vstr "v")] [] "k" "server" = false := by decide
example : Files.detect_changed [("k", .vnull)] [] "k" "local" = false := by decide
example : Sync.detect_changed [("k", .vstr "v")] [] "k" = false := by decide

/-! ## The three-way merge of `files.py` -/

namespace Files

/-- Embeds the `DiffChange` namedtuple handed to `on_change` for every
changed key. -/
structure DiffChange where
  key : String
  previous_value : Val
  new_value : Val
  source : String
  in_base : Bool
  in_result : Bool
deriving Repr, DecidableEq

/-- The union of the key sets of the three sides (`all_keys` in the source;
Python iterates it as a set, in no particular order). -/
def all_keys (local_ base remote : Rec) : List String :=
  (Dict.keys local_ ++ Dict.keys base ++ Dict.keys remote).dedup

/-- One iteration of the `for key in all_keys` loop of
`files.three_way_merge`: updates the result record under construction and
appends the `DiffChange` given to `on_change` when the key counts as
changed. -/
def merge_step (local_ base remote winner : Rec) (on_conflict : String)
    (acc : Rec × List DiffChange) (key : String) : Rec × List DiffChange :=
  let local_changed := detect_changed base local_ key "local"
  let remote_changed := detect_changed base remote key "server"
  let changed := local_changed || remote_changed
  let source :=
    if local_changed = remote_changed then on_conflict
    else if remote_changed then "remote"
    else "local"
  let result :=
    if local_changed = remote_changed then
      match Dict.lookup winner key with
      | some v => acc.1 ++ [(key, v)]
      | none => acc.1
    else if remote_changed then
      match Dict.lookup remote key with
      | some v => acc.1 ++ [(key, v)]
      | none => acc.1
    else
      match Dict.lookup local_ key with
      | some v => acc.1 ++ [(key, v)]
      | none => acc.1
  let diffs :=
    if changed then
      acc.2 ++ [{ key := key, previous_value := Rec.get base key,
                  new_value := Rec.get result key, source := source,
                  in_base := (Dict.lookup base key).isSome,
                  in_result := (Dict.lookup result key).isSome }]
    else acc.2
  (result, diffs)

/-- Embeds `files.three_way_merge(local, base, remote, on_conflict)`.
Returns `none` exactly when the Python code raises `ValueError` on an
invalid `on_conflict`; otherwise the merged record together with the list of
`DiffChange` values passed to `on_change`, in iteration order. -/
def three_way_merge (local_ base remote : Rec) (on_conflict : String) :
    Option (Rec × List DiffChange) :=
  let winner : Option Rec :=
    if on_conflict = "remote" then some remote
    else if on_conflict = "local" then some local_
    else none
  match winner with
  | none => none
  | some w =>
      some ((all_keys local_ base remote).foldl
              (merge_step local_ base remote w on_conflict) ([], []))

/-- The winning side a valid `on_conflict` selects. -/
def winnerOf (local_ remote : Rec) (on_conflict : String) : Rec :=
  if on_conflict = "remote" then remote else local_

/-- Derived: the per-key outcome of the loop body of `three_way_merge`
(present in the result iff `some`). -/
def choosek (local_ base remote w : Rec) (key : String) : Option Val :=
  let local_changed := detect_changed base local_ key "local"
  let remote_changed := detect_changed base remote key "server"
  if local_changed = remote_changed then Dict.lookup w key
  else if remote_changed then Dict.lookup remote key
  else Dict.lookup local_ key

/-- Derived: whether `three_way_merge` treats `key` as changed, i.e. whether
a `DiffChange` is emitted for it. -/
def changedAt (local_ base remote : Rec) (key : String) : Bool :=
  detect_changed base local_ key "local" || detect_changed base remote key "server"

/-- Derived: the `DiffChange` that `three_way_merge` emits at a changed
`key`. -/
def diffk (local_ base remote w : Rec) (on_conflict : String) (key : String) :
    DiffChange :=
  let local_changed := detect_changed base local_ key "local"
  let remote_changed := detect_changed base remote key "server"
  { key := key
    previous_value := Rec.get base key
    new_value := (choosek local_ base remote w key).getD .vnull
    source := if local_changed = remote_changed then on_conflict
              else if remote_changed then "remote" else "local"
    in_base := (Dict.lookup base key).isSome
    in_result := (choosek local_ base remote w key).isSome }

theorem merge_step_eq (local_ base remote w : Rec) (oc : String)
    (acc : Rec × List DiffChange) (key : String)
    (hk : Dict.lookup acc.1 key = none) :
    merge_step local_ base remote w oc acc key =
      (acc.1 ++ ((choosek local_ base remote w key).map (fun v => (key, v))).toList,
       acc.2 ++ (if changedAt local_ base remote key
                 then [diffk local_ base remote w oc key] else [])) := by
  have happ : ∀ (v : Val), Dict.lookup (acc.1 ++ [(key, v)]) key = some v := by
    intro v
    rw [Dict.lookup_append, hk]
    simp [Dict.lookup]
  cases hlc : detect_changed base local_ key "local" <;>
    cases hrc : detect_changed base remote key "server"
  · cases hw : Dict.lookup w key with
    | none => simp [merge_step, choosek, changedAt, diffk, Rec.get, hlc, hrc, hw, hk]
    | some v => simp [merge_step, choosek, changedAt, diffk, Rec.get, hlc, hrc, hw, happ v]
  · cases hr : Dict.lookup remote key with
    | none => simp [merge_step, choosek, changedAt, diffk, Rec.get, hlc, hrc, hr, hk]
    | some v => simp [merge_step, choosek, changedAt, diffk, Rec.get, hlc, hrc, hr, happ v]
  · cases hl : Dict.lookup local_ key with
    | none => simp [merge_step, choosek, changedAt, diffk, Rec.get, hlc, hrc, hl, hk]
    | some v => simp [merge_step, choosek, changedAt, diffk, Rec.get, hlc, hrc, hl, happ v]
  · cases hw : Dict.lookup w key with
    | none => simp [merge_step, choosek, changedAt, diffk, Rec.get, hlc, hrc, hw, hk]
    | some v => simp [merge_step, choosek, changedAt, diffk, Rec.get, hlc, hrc, hw, happ v]


theorem foldl_merge_closed (local_ base remote w : Rec) (oc : String) (ks : List String) :
    ∀ (acc : Rec × List DiffChange), ks.Nodup →
      (∀ k ∈ ks, Dict.lookup acc.1 k = none) →
      ks.foldl (merge_step local_ base remote w oc) acc =
        (acc.1 ++ ks.filterMap (fun k => (choosek local_ base remote w k).map (fun v => (k, v))),
         acc.2 ++ (ks.filter (changedAt local_ base remote)).map (diffk local_ base remote w oc)) := by
  induction ks with
  | nil => intro acc _ _; simp
  | cons k ks ih =>
      intro acc hnd hacc
      rw [List.foldl_cons,
          merge_step_eq local_ base remote w oc acc k (hacc k (List.mem_cons_self k ks))]
      rw [ih _ hnd.of_cons ?_]
      · cases hc : choosek local_ base remote w k with
        | none =>
            simp only [hc, Option.map_none, Option.toList_none, List.append_nil,
              List.filterMap_cons, List.filter_cons, hc]
            by_cases hch : changedAt local_ base remote k = true <;>
              simp [hch, List.append_assoc]
        | some v =>
            simp only [hc, Option.map_some, Option.toList_some, List.filterMap_cons,
              List.filter_cons]
            by_cases hch : changedAt local_ base remote k = true <;>
              simp [hch, List.append_assoc]
      · intro k' hk'
        have hne : k' ≠ k := fun e => (List.nodup_cons.mp hnd).1 (e ▸ hk')
        rw [Dict.lookup_append, hacc k' (List.mem_cons_of_mem k hk')]
        cases hc : choosek local_ base remote w k with
        | none => simp [Dict.lookup]
        | some v => simp [Dict.lookup, Ne.symm hne]

theorem choosek_eq_none_outside (local_ base remote w : Rec) (key : String)
    (hl : Dict.lookup local_ key = none) (hb : Dict.lookup base key = none)
    (hr : Dict.lookup remote key = none) (hw : Dict.lookup w key = none) :
    choosek local_ base remote w key = none := by
  simp [choosek, detect_changed, Rec.get, hl, hb, hr, hw]

theorem keys_filterMap_subset (f : String → Option Val) (ks : List String) :
    Dict.keys (ks.filterMap (fun x => (f x).map (fun v => (x, v)))) ⊆ ks := by
  intro k hk
  rcases List.mem_map.mp hk with ⟨p, hp, hpk⟩
  rcases List.mem_filterMap.mp hp with ⟨x, hx, hfx⟩
  rcases Option.map_eq_some'.mp hfx with ⟨v, _, hxv⟩
  rw [← hpk, ← hxv]
  exact hx

theorem lookup_filterMap_mem {f : String → Option Val} {ks : List String}
    (hnd : ks.Nodup) {k : String} (hmem : k ∈ ks) :
    Dict.lookup (ks.filterMap (fun x => (f x).map (fun v => (x, v)))) k = f k := by
  induction ks with
  | nil => cases hmem
  | cons a ks ih =>
      have hnd' := List.nodup_cons.mp hnd
      rcases List.mem_cons.mp hmem with h | h
      · subst h
        cases hf : f k with
        | none =>
            rw [List.filterMap_cons]
            simp only [hf, Option.map_none]
            refine Dict.lookup_eq_none_of_not_mem_keys (fun hky => ?_)
            exact hnd'.1 (keys_filterMap_subset f ks hky)
        | some v =>
            rw [List.filterMap_cons]
            simp [hf, Dict.lookup]
      · have hka : k ≠ a := fun e => hnd'.1 (e ▸ h)
        cases hf : f a with
        | none => simpa [List.filterMap_cons, hf] using ih hnd'.2 h
        | some v =>
            simp only [List.filterMap_cons, hf, Option.map_some']
            rw [Dict.lookup, if_neg (Ne.symm hka)]
            exact ih hnd'.2 h

theorem lookup_filterMap_not_mem {f : String → Option Val} {ks : List String}
    {k : String} (hmem : k ∉ ks) :
    Dict.lookup (ks.filterMap (fun x => (f x).map (fun v => (x, v)))) k = none := by
  refine Dict.lookup_eq_none_of_not_mem_keys (fun hky => ?_)
  exact hmem (keys_filterMap_subset f ks hky)

theorem mem_all_keys_of_lookup {local_ base remote : Rec} {key : String}
    (h : ¬ (Dict.lookup local_ key = none ∧ Dict.lookup base key = none ∧
            Dict.lookup remote key = none)) :
    key ∈ all_keys local_ base remote := by
  rw [all_keys, List.mem_dedup, List.mem_append, List.mem_append]
  by_contra hc
  push_neg at hc
  exact h ⟨Dict.lookup_eq_none_of_not_mem_keys (fun m => hc.1.1 m),
           Dict.lookup_eq_none_of_not_mem_keys (fun m => hc.1.2 m),
           Dict.lookup_eq_none_of_not_mem_keys (fun m => hc.2 m)⟩

theorem three_way_merge_closed (local_ base remote : Rec) (oc : String)
    (hoc : oc = "remote" ∨ oc = "local") :
    three_way_merge local_ base remote oc =
      some ((all_keys local_ base remote).filterMap
              (fun k => (choosek local_ base remote (winnerOf local_ remote oc) k).map
                (fun v => (k, v))),
            ((all_keys local_ base remote).filter (changedAt local_ base remote)).map
              (diffk local_ base remote (winnerOf local_ remote oc) oc)) := by
  have hfold := foldl_merge_closed local_ base remote (winnerOf local_ remote oc) oc
    (all_keys local_ base remote) ([], []) (List.nodup_dedup _) (fun k _ => rfl)
  rcases hoc with h | h <;> subst h <;>
    simpa [three_way_merge, winnerOf] using hfold

theorem three_way_merge_lookup (local_ base remote : Rec) (oc : String)
    (hoc : oc = "remote" ∨ oc = "local") {res : Rec} {diffs : List DiffChange}
    (h : three_way_merge local_ base remote oc = some (res, diffs)) (k : String) :
    Dict.lookup res k = choosek local_ base remote (winnerOf local_ remote oc) k := by
  rw [three_way_merge_closed local_ base remote oc hoc] at h
  have hres : res = (all_keys local_ base remote).filterMap
      (fun k => (choosek local_ base remote (winnerOf local_ remote oc) k).map
        (fun v => (k, v))) := by
    exact (congrArg Prod.fst (Option.some.inj h)).symm
  subst hres
  by_cases hmem : k ∈ all_keys local_ base remote
  · exact lookup_filterMap_mem (List.nodup_dedup _) hmem
  · rw [lookup_filterMap_not_mem hmem]
    have hl : Dict.lookup local_ k = none := by
      refine Dict.lookup_eq_none_of_not_mem_keys (fun m => hmem ?_)
      rw [all_keys, List.mem_dedup]
      exact List.mem_append_left _ (List.mem_append_left _ m)
    have hb : Dict.lookup base k = none := by
      refine Dict.lookup_eq_none_of_not_mem_keys (fun m => hmem ?_)
      rw [all_keys, List.mem_dedup]
      exact List.mem_append_left _ (List.mem_append_right _ m)
    have hr : Dict.lookup remote k = none := by
      refine Dict.lookup_eq_none_of_not_mem_keys (fun m => hmem ?_)
      rw [all_keys, List.mem_dedup]
      exact List.mem_append_right _ m
    have hw : Dict.lookup (winnerOf local_ remote oc) k = none := by
      rw [winnerOf]
      split <;> [exact hr; exact hl]
    exact (choosek_eq_none_outside local_ base remote _ k hl hb hr hw).symm


theorem detect_changed_local_eq (base other : Rec) (key : String) :
    detect_changed base other key "local" = decide (Rec.get base key ≠ Rec.get other key) := by
  simp [detect_changed]

theorem detect_changed_true_ne {base other : Rec} {key s : String}
    (h : detect_changed base other key s = true) :
    Rec.get base key ≠ Rec.get other key := by
  by_cases hc : Dict.lookup other key = none ∧ s ≠ "local"
  · rw [detect_changed, if_pos hc] at h; cases h
  · rw [detect_changed, if_neg hc] at h; exact of_decide_eq_true h

theorem detect_changed_server_true_isSome {base other : Rec} {key : String}
    (h : detect_changed base other key "server" = true) :
    (Dict.lookup other key).isSome := by
  cases hl : Dict.lookup other key with
  | some v => rfl
  | none =>
      rw [detect_changed, if_pos ⟨hl, by decide⟩] at h
      cases h

theorem detect_changed_false_get_eq {base other : Rec} {key s : String} {v : Val}
    (h : detect_changed base other key s = false) (hv : Dict.lookup other key = some v) :
    Rec.get base key = v := by
  have hc : ¬ (Dict.lookup other key = none ∧ s ≠ "local") := by
    rintro ⟨h1, -⟩
    rw [hv] at h1
    cases h1
  rw [detect_changed, if_neg hc] at h
  have hne := of_decide_eq_false h
  push_neg at hne
  rw [hne, Rec.get, hv]
  rfl

theorem detect_changed_congr {base base' other other' : Rec} (key s : String)
    (hb : Dict.lookup base key = Dict.lookup base' key)
    (ho : Dict.lookup other key = Dict.lookup other' key) :
    detect_changed base other key s = detect_changed base' other' key s := by
  rw [detect_changed, detect_changed, Rec.get, Rec.get, Rec.get, Rec.get, hb, ho]

theorem choosek_congr {l l' b b' r r' w w' : Rec} (key : String)
    (hl : Dict.lookup l key = Dict.lookup l' key)
    (hb : Dict.lookup b key = Dict.lookup b' key)
    (hr : Dict.lookup r key = Dict.lookup r' key)
    (hw : Dict.lookup w key = Dict.lookup w' key) :
    choosek l b r w key = choosek l' b' r' w' key := by
  rw [choosek, choosek, detect_changed_congr key "local" hb hl,
      detect_changed_congr key "server" hb hr, hl, hr, hw]

theorem winnerOf_self (x : Rec) (oc : String) : winnerOf x x oc = x := by
  rw [winnerOf]
  split <;> rfl

theorem choosek_self (x : Rec) (key : String) :
    choosek x x x x key = Dict.lookup x key := by
  have hlc : detect_changed x x key "local" = false := by
    rw [detect_changed_local_eq]
    simp
  have hrc : detect_changed x x key "server" = false := by
    rw [detect_changed]
    split
    · rfl
    · simp
  rw [choosek]
  simp [hlc, hrc]

theorem some_ne_lookup_of_ne_get {base : Rec} {key : String} {v : Val}
    (h : v ≠ Rec.get base key) : some v ≠ Dict.lookup base key := by
  cases hb : Dict.lookup base key with
  | none => simp
  | some u =>
      intro he
      apply h
      rw [Rec.get, hb, Option.some.inj he]
      rfl

theorem none_ne_lookup_of_get_ne_null {base : Rec} {key : String}
    (h : Rec.get base key ≠ .vnull) : (none : Option Val) ≠ Dict.lookup base key := by
  cases hb : Dict.lookup base key with
  | none =>
      exfalso
      apply h
      rw [Rec.get, hb]
      rfl
  | some u => simp

theorem choosek_ne_base {local_ base remote : Rec} {oc key : String}
    (hoc : oc = "remote" ∨ oc = "local")
    (h : changedAt local_ base remote key = true) :
    choosek local_ base remote (winnerOf local_ remote oc) key ≠ Dict.lookup base key := by
  have hlocal : detect_changed base local_ key "local" = true →
      Dict.lookup local_ key ≠ Dict.lookup base key := by
    intro hlc
    have hne := detect_changed_true_ne hlc
    cases hl : Dict.lookup local_ key with
    | none =>
        apply none_ne_lookup_of_get_ne_null
        intro hnull
        apply hne
        rw [hnull, Rec.get, hl]
        rfl
    | some u =>
        apply some_ne_lookup_of_ne_get
        intro he
        apply hne
        simp only [Rec.get, hl, Option.getD_some]
        exact he.symm
  have hremote : detect_changed base remote key "server" = true →
      Dict.lookup remote key ≠ Dict.lookup base key := by
    intro hrc
    have hne := detect_changed_true_ne hrc
    have hsome := detect_changed_server_true_isSome hrc
    cases hr : Dict.lookup remote key with
    | none => rw [hr] at hsome; cases hsome
    | some v =>
        apply some_ne_lookup_of_ne_get
        intro he
        apply hne
        simp only [Rec.get, hr, Option.getD_some]
        exact he.symm
  rw [changedAt] at h
  rw [choosek]
  by_cases hlc : detect_changed base local_ key "local" = true
  · by_cases hrc : detect_changed base remote key "server" = true
    · rw [if_pos (hlc.trans hrc.symm), winnerOf]
      rcases hoc with h1 | h1 <;> rw [h1]
      · rw [if_pos rfl]
        exact hremote hrc
      · rw [if_neg (by decide)]
        exact hlocal hlc
    · have hrc' := Bool.eq_false_iff.mpr hrc
      rw [if_neg (by simp [hlc, hrc']), if_neg (by simp [hrc'])]
      exact hlocal hlc
  · have hlc' := Bool.eq_false_iff.mpr hlc
    by_cases hrc : detect_changed base remote key "server" = true
    · rw [if_neg (by simp [hlc', hrc]), if_pos hrc]
      exact hremote hrc
    · have hrc' := Bool.eq_false_iff.mpr hrc
      rw [hlc', hrc'] at h
      cases h

theorem changedAt_mem_all_keys {local_ base remote : Rec} {key : String}
    (h : changedAt local_ base remote key = true) :
    key ∈ all_keys local_ base remote := by
  apply mem_all_keys_of_lookup
  rintro ⟨hl, hb, hr⟩
  rw [changedAt] at h
  rcases Bool.or_eq_true_iff.mp h with hlc | hrc
  · have := detect_changed_true_ne hlc
    apply this
    rw [Rec.get, Rec.get, hl, hb]
  · have hsome := detect_changed_server_true_isSome hrc
    rw [hr] at hsome
    cases hsome


end Files

namespace Sync

/-- Embeds the `DiffChange` namedtuple of `sync.py` (a verbatim duplicate of
the one in `files.py`). -/
structure DiffChange where
  key : String
  previous_value : Val
  new_value : Val
  source : String
  in_base : Bool
  in_result : Bool
deriving Repr, DecidableEq

/-- The union of the key sets of the three sides (`all_keys` in
`sync.three_way_merge`). -/
def all_keys (local_ base remote : Rec) : List String :=
  (Dict.keys local_ ++ Dict.keys base ++ Dict.keys remote).dedup

/-- One iteration of the `for key in all_keys` loop of
`sync.three_way_merge`; identical to the one in `files.py` except that its
`detect_changed` has no `source` parameter. -/
def merge_step (local_ base remote winner : Rec) (on_conflict : String)
    (acc : Rec × List DiffChange) (key : String) : Rec × List DiffChange :=
  let local_changed := detect_changed base local_ key
  let remote_changed := detect_changed base remote key
  let changed := local_changed || remote_changed
  let source :=
    if local_changed = remote_changed then on_conflict
    else if remote_changed then "remote"
    else "local"
  let result :=
    if local_changed = remote_changed then
      match Dict.lookup winner key with
      | some v => acc.1 ++ [(key, v)]
      | none => acc.1
    else if remote_changed then
      match Dict.lookup remote key with
      | some v => acc.1 ++ [(key, v)]
      | none => acc.1
    else
      match Dict.lookup local_ key with
      | some v => acc.1 ++ [(key, v)]
      | none => acc.1
  let diffs :=
    if changed then
      acc.2 ++ [{ key := key, previous_value := Rec.get base key,
                  new_value := Rec.get result key, source := source,
                  in_base := (Dict.lookup base key).isSome,
                  in_result := (Dict.lookup result key).isSome }]
    else acc.2
  (result, diffs)

/-- Embeds `sync.three_way_merge(local, base, remote, on_conflict)`; `none`
models the `ValueError` on an invalid `on_conflict`. -/
def three_way_merge (local_ base remote : Rec) (on_conflict : String) :
    Option (Rec × List DiffChange) :=
  let winner : Option Rec :=
    if on_conflict = "remote" then some remote
    else if on_conflict = "local" then some local_
    else none
  match winner with
  | none => none
  | some w =>
      some ((all_keys local_ base remote).foldl
              (merge_step local_ base remote w on_conflict) ([], []))

end Sync

/-! ## Claims C1 to C4: the three-way merge -/

/-- Claim C1 is false: with `local = base = {role: "x"}`, `remote = {}` and
the valid policy `"remote"`, neither side counts as changed at key `"role"`
(per `detect_changed`) and the key is present in `base`, yet the merged
result omits it: because both sides are unchanged the code takes the key
from the conflict winner (`remote`), where it is absent, instead of
carrying it forward from `base`. -/
theorem claim_C1_counterexample :
    Files.detect_changed [("role", Val.vstr "x")] [("role", Val.vstr "x")] "role" "local"
      = false ∧
    Files.detect_changed [("role", Val.vstr "x")] [] "role" "server" = false ∧
    Dict.lookup [("role", Val.vstr "x")] "role" = some (Val.vstr "x") ∧
    Files.three_way_merge [("role", Val.vstr "x")] [("role", Val.vstr "x")] [] "remote" =
      some ([], []) := by decide

/-- Claim C1 (amended): for every valid conflict policy and every key at
which neither the local nor the remote side changed (per `detect_changed`),
the merged result takes the key from the policy winner: it is present in the
result iff it is present in the winner, and any value it then has equals
`base.get(key)` (so it equals base's stored value when the key is in base,
and is `null` when the key is absent from base). A key absent from the
winner is omitted even when it is present in `base`. -/
theorem claim_C1_carry_forward (local_ base remote : Rec) (oc key : String)
    (hoc : oc = "remote" ∨ oc = "local")
    (hlc : Files.detect_changed base local_ key "local" = false)
    (hrc : Files.detect_changed base remote key "server" = false) :
    ∃ res diffs, Files.three_way_merge local_ base remote oc = some (res, diffs) ∧
      Dict.lookup res key = Dict.lookup (Files.winnerOf local_ remote oc) key ∧
      ∀ v, Dict.lookup (Files.winnerOf local_ remote oc) key = some v →
        v = Rec.get base key := by
  refine ⟨_, _, Files.three_way_merge_closed local_ base remote oc hoc, ?_, ?_⟩
  · rw [Files.three_way_merge_lookup local_ base remote oc hoc
        (Files.three_way_merge_closed local_ base remote oc hoc) key]
    rw [Files.choosek]
    simp [hlc, hrc]
  · intro v hv
    rw [Files.winnerOf] at hv
    by_cases h1 : oc = "remote"
    · rw [if_pos h1] at hv
      exact (Files.detect_changed_false_get_eq hrc hv).symm
    · rw [if_neg h1] at hv
      exact (Files.detect_changed_false_get_eq hlc hv).symm

/-- Witness for `claim_C1_carry_forward` at a concrete input. -/
theorem claim_C1_carry_forward_witness :
    ("remote" = "remote" ∨ "remote" = "local") ∧
    Files.detect_changed [("k", Val.vstr "a")] [("k", Val.vstr "a")] "k" "local" = false ∧
    Files.detect_changed [("k", Val.vstr "a")] [("k", Val.vstr "a")] "k" "server" = false ∧
    (∃ res diffs,
      Files.three_way_merge [("k", Val.vstr "a")] [("k", Val.vstr "a")]
          [("k", Val.vstr "a")] "remote" = some (res, diffs) ∧
      Dict.lookup res "k" =
        Dict.lookup (Files.winnerOf [("k", Val.vstr "a")] [("k", Val.vstr "a")] "remote") "k" ∧
      ∀ v, Dict.lookup (Files.winnerOf [("k", Val.vstr "a")] [("k", Val.vstr "a")] "remote") "k"
          = some v → v = Rec.get [("k", Val.vstr "a")] "k") :=
  ⟨Or.inl rfl, by decide, by decide,
   claim_C1_carry_forward [("k", Val.vstr "a")] [("k", Val.vstr "a")] [("k", Val.vstr "a")]
     "remote" "k" (Or.inl rfl) (by decide) (by decide)⟩

/-- Claim C2 is false as stated: in `files.detect_changed`, a key present in
`base` (here with value `null`) and absent from the local side is not
reported as changed, because change detection compares with `.get`, for
which a stored `null` and an absent key look alike. -/
theorem claim_C2_counterexample :
    Dict.lookup [("k", Val.vnull)] "k" = some Val.vnull ∧
    Dict.lookup ([] : Rec) "k" = none ∧
    Files.detect_changed [("k", Val.vnull)] [] "k" "local" = false := by decide

/-- Claim C2 (amended): in `files.detect_changed` a key absent from the
evaluated side is never reported changed unless the side is `"local"`; with
source `"local"`, a key present in base with a non-null value and absent
from local is reported changed (a null-valued base key is indistinguishable
from an absent one). `sync.detect_changed` has no side parameter at all:
absence from the evaluated side is never a change there, for either side,
so local deletions are not detectable through it. -/
theorem claim_C2_change_detection (base other : Rec) (key s : String) :
    (s ≠ "local" → Dict.lookup other key = none →
      Files.detect_changed base other key s = false) ∧
    (∀ v, Dict.lookup base key = some v → v ≠ Val.vnull →
      Dict.lookup other key = none →
      Files.detect_changed base other key "local" = true) ∧
    (Dict.lookup other key = none → Sync.detect_changed base other key = false) := by
  refine ⟨?_, ?_, ?_⟩
  · intro hs ho
    rw [Files.detect_changed, if_pos ⟨ho, hs⟩]
  · intro v hb hv ho
    have h1 : Rec.get base key = v := by rw [Rec.get, hb]; rfl
    have h2 : Rec.get other key = Val.vnull := by rw [Rec.get, ho]; rfl
    rw [Files.detect_changed_local_eq, h1, h2]
    exact decide_eq_true hv
  · intro ho
    rw [Sync.detect_changed, if_pos ho]

/-- Witness for `claim_C2_change_detection` at concrete inputs. -/
theorem claim_C2_change_detection_witness :
    (("server" : String) ≠ "local") ∧ Dict.lookup ([] : Rec) "r" = none ∧
    Dict.lookup [("r", Val.vstr "x")] "r" = some (Val.vstr "x") ∧
    (Val.vstr "x" ≠ Val.vnull) ∧
    Files.detect_changed [] [] "r" "server" = false ∧
    Files.detect_changed [("r", Val.vstr "x")] [] "r" "local" = true ∧
    Sync.detect_changed [("r", Val.vstr "x")] [] "r" = false := by
  refine ⟨by decide, by decide, by decide, by decide, ?_, ?_, ?_⟩
  · exact (claim_C2_change_detection [] [] "r" "server").1 (by decide) (by decide)
  · exact (claim_C2_change_detection [("r", Val.vstr "x")] [] "r" "server").2.1
      (Val.vstr "x") (by decide) (by decide) (by decide)
  · exact (claim_C2_change_detection [("r", Val.vstr "x")] [] "r" "server").2.2 (by decide)

/-- Claim C3 is false as stated: with `local = base = {a: "x"}`, `remote = {}`
and policy `"remote"`, the merge outcome at key `"a"` differs from base by
presence (the key is dropped), yet no `DiffChange` at all is emitted,
because emission is keyed on `detect_changed`, not on the outcome. -/
theorem claim_C3_counterexample :
    Files.three_way_merge [("a", Val.vstr "x")] [("a", Val.vstr "x")] [] "remote" =
      some ([], []) ∧
    Dict.lookup [("a", Val.vstr "x")] "a" ≠ Dict.lookup ([] : Rec) "a" := by decide

/-- Claim C3 (amended): for every merge execution with a valid policy and
every key, exactly one `DiffChange` is emitted for the key iff
`detect_changed` reports the local or the remote side changed (which implies
the outcome at the key differs from base, but not conversely: an unchanged
key dropped because it is absent from the conflict winner emits nothing);
an emitted `DiffChange` carries `previous_value = base.get(key)`,
`new_value = result.get(key)`, the presence flags, and `source` equal to the
policy's label when both sides changed equally, else `"remote"`/`"local"`
for the side that changed. -/
theorem claim_C3_diff_reporting (local_ base remote : Rec) (oc : String)
    (hoc : oc = "remote" ∨ oc = "local") :
    ∃ res diffs, Files.three_way_merge local_ base remote oc = some (res, diffs) ∧
      ∀ key,
        ((diffs.filter (fun d => d.key == key)).length =
          if Files.changedAt local_ base remote key then 1 else 0) ∧
        (Files.changedAt local_ base remote key = true →
          Dict.lookup res key ≠ Dict.lookup base key) ∧
        (∀ d, d ∈ diffs → d.key = key →
          d.previous_value = Rec.get base key ∧
          d.new_value = Rec.get res key ∧
          d.in_base = (Dict.lookup base key).isSome ∧
          d.in_result = (Dict.lookup res key).isSome ∧
          d.source = (if Files.detect_changed base local_ key "local"
                        = Files.detect_changed base remote key "server" then oc
                      else if Files.detect_changed base remote key "server" = true
                      then "remote" else "local")) := by
  have hclosed := Files.three_way_merge_closed local_ base remote oc hoc
  refine ⟨_, _, hclosed, fun key => ⟨?_, ?_, ?_⟩⟩
  · rw [List.filter_map,
        List.filter_congr (fun k' _ => by rw [Function.comp_apply, Files.diffk]),
        List.length_map, ← List.countP_eq_length_filter]
    by_cases hch : Files.changedAt local_ base remote key = true
    · rw [hch, if_pos rfl]
      have hmem : key ∈ (Files.all_keys local_ base remote).filter
          (Files.changedAt local_ base remote) :=
        List.mem_filter.mpr ⟨Files.changedAt_mem_all_keys hch, hch⟩
      have hnd : ((Files.all_keys local_ base remote).filter
          (Files.changedAt local_ base remote)).Nodup :=
        (List.nodup_dedup _).filter _
      exact List.count_eq_one_of_mem hnd hmem
    · have hch' := Bool.eq_false_iff.mpr hch
      rw [hch', if_neg (by simp)]
      refine List.count_eq_zero.mpr (fun hmem => ?_)
      exact hch (List.mem_filter.mp hmem).2
  · intro hch
    rw [Files.three_way_merge_lookup local_ base remote oc hoc hclosed key]
    exact Files.choosek_ne_base hoc hch
  · intro d hd hdk
    rcases List.mem_map.mp hd with ⟨k', hk', hdk'⟩
    have hkey : k' = key := by rw [← hdk, ← hdk', Files.diffk]
    subst hkey
    subst hdk'
    have hlook := Files.three_way_merge_lookup local_ base remote oc hoc hclosed k'
    refine ⟨rfl, ?_, rfl, ?_, rfl⟩
    · rw [Rec.get, hlook]
      rfl
    · rw [hlook]
      rfl

/-- Witness for `claim_C3_diff_reporting` at a concrete input. -/
theorem claim_C3_diff_reporting_witness :
    ("remote" = "remote" ∨ "remote" = "local") ∧
    (∃ res diffs,
      Files.three_way_merge [("r", Val.vstr "x")] [] [] "remote" = some (res, diffs) ∧
      ∀ key,
        ((diffs.filter (fun d => d.key == key)).length =
          if Files.changedAt [("r", Val.vstr "x")] [] [] key then 1 else 0) ∧
        (Files.changedAt [("r", Val.vstr "x")] [] [] key = true →
          Dict.lookup res key ≠ Dict.lookup ([] : Rec) key) ∧
        (∀ d, d ∈ diffs → d.key = key →
          d.previous_value = Rec.get [] key ∧
          d.new_value = Rec.get res key ∧
          d.in_base = (Dict.lookup ([] : Rec) key).isSome ∧
          d.in_result = (Dict.lookup res key).isSome ∧
          d.source = (if Files.detect_changed [] [("r", Val.vstr "x")] key "local"
                        = Files.detect_changed [] [] key "server" then "remote"
                      else if Files.detect_changed [] [] key "server" = true
                      then "remote" else "local"))) :=
  ⟨Or.inl rfl, claim_C3_diff_reporting [("r", Val.vstr "x")] [] [] "remote" (Or.inl rfl)⟩

/-- Claim C4 is false as stated: merging is deterministic, but re-running
the merge on its own output is not a no-op. With `L = {}`,
`B = R = {k: "v"}` and policy `"remote"`, the output is `out = {}` (the
local deletion wins), but `merge(out, out, R, "remote")` resurrects
`k = "v"` from the unchanged remote, so `merge(out, out, R, P) ≠ out`. -/
theorem claim_C4_counterexample :
    Files.three_way_merge [] [("k", Val.vstr "v")] [("k", Val.vstr "v")] "remote" =
      some ([], [{ key := "k", previous_value := Val.vstr "v", new_value := Val.vnull,
                   source := "local", in_base := true, in_result := false }]) ∧
    Files.three_way_merge [] [] [("k", Val.vstr "v")] "remote" =
      some ([("k", Val.vstr "v")],
            [{ key := "k", previous_value := Val.vnull, new_value := Val.vstr "v",
               source := "remote", in_base := false, in_result := true }]) ∧
    Dict.beqv [("k", Val.vstr "v")] ([] : Rec) = false := by decide

/-- Claim C4 (amended): the merge is deterministic — its result depends only
on the three input mappings (not on entry order: lookup-equivalent inputs
give a lookup-equivalent result) — and re-merging is a no-op when all three
sides equal the previous output: `merge(X, X, X, P) == X` for either valid
policy. Idempotence of `merge(out, out, R, P)` for an unchanged but
different `R` fails (see the counterexample). -/
theorem claim_C4_determinism (l l' b b' r r' x : Rec) (oc : String)
    (hoc : oc = "remote" ∨ oc = "local")
    (hl : Dict.Equiv l l') (hb : Dict.Equiv b b') (hr : Dict.Equiv r r') :
    (∃ p q, Files.three_way_merge l b r oc = some p ∧
            Files.three_way_merge l' b' r' oc = some q ∧ Dict.Equiv p.1 q.1) ∧
    (∃ p, Files.three_way_merge x x x oc = some p ∧ Dict.Equiv p.1 x) := by
  constructor
  · refine ⟨_, _, Files.three_way_merge_closed l b r oc hoc,
      Files.three_way_merge_closed l' b' r' oc hoc, fun k => ?_⟩
    rw [Files.three_way_merge_lookup l b r oc hoc
          (Files.three_way_merge_closed l b r oc hoc) k,
        Files.three_way_merge_lookup l' b' r' oc hoc
          (Files.three_way_merge_closed l' b' r' oc hoc) k]
    refine Files.choosek_congr k (hl k) (hb k) (hr k) ?_
    rw [Files.winnerOf, Files.winnerOf]
    split
    · exact hr k
    · exact hl k
  · refine ⟨_, Files.three_way_merge_closed x x x oc hoc, fun k => ?_⟩
    rw [Files.three_way_merge_lookup x x x oc hoc
          (Files.three_way_merge_closed x x x oc hoc) k,
        Files.winnerOf_self, Files.choosek_self]

/-- Witness for `claim_C4_determinism` at concrete inputs (two entry orders
of the same two-key record). -/
theorem claim_C4_determinism_witness :
    ("remote" = "remote" ∨ "remote" = "local") ∧
    Dict.Equiv [("a", Val.vstr "1"), ("b", Val.vstr "2")]
               [("b", Val.vstr "2"), ("a", Val.vstr "1")] ∧
    Dict.Equiv ([] : Rec) ([] : Rec) ∧
    ((∃ p q, Files.three_way_merge [("a", Val.vstr "1"), ("b", Val.vstr "2")] [] [] "remote"
        = some p ∧
      Files.three_way_merge [("b", Val.vstr "2"), ("a", Val.vstr "1")] [] [] "remote"
        = some q ∧ Dict.Equiv p.1 q.1) ∧
     (∃ p, Files.three_way_merge [("x", Val.vstr "y")] [("x", Val.vstr "y")]
        [("x", Val.vstr "y")] "remote" = some p ∧ Dict.Equiv p.1 [("x", Val.vstr "y")])) :=
  ⟨Or.inl rfl, (Dict.beqv_iff _ _).mp (by decide), fun k => rfl,
   claim_C4_determinism [("a", Val.vstr "1"), ("b", Val.vstr "2")]
     [("b", Val.vstr "2"), ("a", Val.vstr "1")] [] [] [] [] [("x", Val.vstr "y")] "remote"
     (Or.inl rfl) ((Dict.beqv_iff _ _).mp (by decide)) (fun k => rfl) (fun k => rfl)⟩

/-! ## The edit-oriented stores: `SyspurposeStore` and `SyncedStore` -/

namespace SyspurposeStore

/-- Embeds `SyspurposeStore.unset(key)` acting on the store's `contents`:
only the service-level key is special-cased (set to `""`); every other key,
including `addons`, is popped. Returns the Python result `value is not None`
together with the updated contents. -/
def unset (contents : Rec) (key : String) : Bool × Rec :=
  if key = "service_level_agreement" then
    (decide (Rec.get contents key ≠ Val.vnull),
     Dict.set contents key (Val.vstr ""))
  else
    (decide (Rec.get contents key ≠ Val.vnull),
     Dict.eraseKey contents key)

theorem unset_fst_store (contents : Rec) (key : String) :
    (unset contents key).1 = decide (Rec.get contents key ≠ Val.vnull) := by
  rw [unset]
  split <;> rfl

end SyspurposeStore

namespace SyncedStore

/-- The in-memory session state of a `SyncedStore`: the local record being
edited (`self.local_contents`) and the session dirty flag (`self.changed`). -/
structure State where
  local_contents : Rec
  changed : Bool
deriving Repr, DecidableEq

/-- Embeds `SyncedStore.unset(key)`: the service-level key is set to `""`,
the addons key to `[]`, every other key is popped; `self.changed` is set to
`True` unconditionally. Returns the Python result `value is not None` with
the new state. -/
def unset (st : State) (key : String) : Bool × State :=
  if key = "service_level_agreement" then
    (decide (Rec.get st.local_contents key ≠ Val.vnull),
     { local_contents := Dict.set st.local_contents key (Val.vstr ""), changed := true })
  else if key = "addons" then
    (decide (Rec.get st.local_contents key ≠ Val.vnull),
     { local_contents := Dict.set st.local_contents key (Val.vlist []), changed := true })
  else
    (decide (Rec.get st.local_contents key ≠ Val.vnull),
     { local_contents := Dict.eraseKey st.local_contents key, changed := true })

/-- Embeds `SyncedStore.set(key, value)`: stores the value, and sets
`self.changed` only when `org != value or org is None`; returns that same
condition. -/
def set (st : State) (key : String) (value : Val) : Bool × State :=
  let org := Rec.get st.local_contents key
  let cond := decide (org ≠ value) || decide (org = Val.vnull)
  (cond,
   { local_contents := Dict.set st.local_contents key value,
     changed := if cond then true else st.changed })

/-- Embeds the in-memory effect of `SyncedStore.sync()` for given remote and
cached contents: merge with `files.three_way_merge` (its default policy is
`"remote"`), adopt the result as the local contents, and clear the dirty
flag. The `none` branch is unreachable (`"remote"` is a valid policy). -/
def sync (st : State) (remote cached : Rec) : State :=
  match Files.three_way_merge st.local_contents cached remote "remote" with
  | some (result, _) => { local_contents := result, changed := false }
  | none => st

/-- Embeds `SyncedStore.finish()` (run on scope exit by `__exit__`):
triggers `sync()` iff the session is dirty, and returns whether it did. -/
def finish (st : State) (remote cached : Rec) : Bool × State :=
  if st.changed then (true, sync st remote cached)
  else (false, st)

theorem unset_fst_session (st : State) (key : String) :
    (unset st key).1 = decide (Rec.get st.local_contents key ≠ Val.vnull) := by
  rw [unset]
  split
  · rfl
  · split <;> rfl

theorem unset_changed (st : State) (key : String) :
    (unset st key).2.changed = true := by
  rw [unset]
  split
  · rfl
  · split <;> rfl

theorem finish_fst (st : State) (remote cached : Rec) :
    (finish st remote cached).1 = st.changed := by
  rw [finish]
  split
  · rename_i h
    exact h.symm
  · rename_i h
    exact (Bool.eq_false_iff.mpr h).symm

end SyncedStore

/-! ## Claims C7, C9, C10: the store mutators -/

/-- Claim C7 is false as stated: `SyspurposeStore.unset` has no special case
for `addons` — unsetting it removes the key entirely instead of leaving an
empty list (only `SyncedStore.unset` has the empty-list special case). -/
theorem claim_C7_counterexample :
    SyspurposeStore.unset [("addons", Val.vlist [Scalar.sstr "x"])] "addons"
      = (true, ([] : Rec)) ∧
    Dict.lookup ([] : Rec) "addons" = none := by decide

/-- Claim C7 (amended): in both stores, `unset("service_level_agreement")`
leaves the key present with value `""`; `unset("addons")` leaves the key
present with value `[]` in `SyncedStore` but removes it entirely in
`SyspurposeStore`; and unset of any other key removes the key entirely in
both stores. -/
theorem claim_C7_unset_policy (contents : Rec) (st : SyncedStore.State) (key : String)
    (hk1 : key ≠ "service_level_agreement") (hk2 : key ≠ "addons") :
    Dict.lookup (SyspurposeStore.unset contents "service_level_agreement").2
      "service_level_agreement" = some (Val.vstr "") ∧
    Dict.lookup (SyspurposeStore.unset contents "addons").2 "addons" = none ∧
    Dict.lookup (SyspurposeStore.unset contents key).2 key = none ∧
    Dict.lookup (SyncedStore.unset st "service_level_agreement").2.local_contents
      "service_level_agreement" = some (Val.vstr "") ∧
    Dict.lookup (SyncedStore.unset st "addons").2.local_contents "addons"
      = some (Val.vlist []) ∧
    Dict.lookup (SyncedStore.unset st key).2.local_contents key = none := by
  refine ⟨?_, ?_, ?_, ?_, ?_, ?_⟩
  · rw [SyspurposeStore.unset, if_pos rfl]
    exact Dict.lookup_set_self _ _ _
  · rw [SyspurposeStore.unset, if_neg (by decide)]
    exact Dict.lookup_eraseKey_self _ _
  · rw [SyspurposeStore.unset, if_neg hk1]
    exact Dict.lookup_eraseKey_self _ _
  · rw [SyncedStore.unset, if_pos rfl]
    exact Dict.lookup_set_self _ _ _
  · rw [SyncedStore.unset, if_neg (by decide), if_pos rfl]
    exact Dict.lookup_set_self _ _ _
  · rw [SyncedStore.unset, if_neg hk1, if_neg hk2]
    exact Dict.lookup_eraseKey_self _ _

/-- Witness for `claim_C7_unset_policy` at a concrete input. -/
theorem claim_C7_unset_policy_witness :
    (("role" : String) ≠ "service_level_agreement") ∧ (("role" : String) ≠ "addons") ∧
    (Dict.lookup (SyspurposeStore.unset [("role", Val.vstr "a")] "service_level_agreement").2
      "service_level_agreement" = some (Val.vstr "") ∧
    Dict.lookup (SyspurposeStore.unset [("role", Val.vstr "a")] "addons").2 "addons" = none ∧
    Dict.lookup (SyspurposeStore.unset [("role", Val.vstr "a")] "role").2 "role" = none ∧
    Dict.lookup (SyncedStore.unset ⟨[("role", Val.vstr "a")], false⟩
        "service_level_agreement").2.local_contents
      "service_level_agreement" = some (Val.vstr "") ∧
    Dict.lookup (SyncedStore.unset ⟨[("role", Val.vstr "a")], false⟩
        "addons").2.local_contents "addons" = some (Val.vlist []) ∧
    Dict.lookup (SyncedStore.unset ⟨[("role", Val.vstr "a")], false⟩
        "role").2.local_contents "role" = none) :=
  ⟨by decide, by decide,
   claim_C7_unset_policy [("role", Val.vstr "a")] ⟨[("role", Val.vstr "a")], false⟩ "role"
     (by decide) (by decide)⟩

/-- Claim C9 is false as stated: a key stored with value `null` exists in
the record, yet `unset` returns false for it in both stores, because the
return value is `value is not None` computed from a `.get`, which conflates
a stored `null` with an absent key. -/
theorem claim_C9_counterexample :
    Dict.lookup [("role", Val.vnull)] "role" = some Val.vnull ∧
    (SyspurposeStore.unset [("role", Val.vnull)] "role").1 = false ∧
    (SyncedStore.unset ⟨[("role", Val.vnull)], false⟩ "role").1 = false := by decide

/-- Claim C9 (amended): for every store state and key, `unset(key)` (in both
`SyspurposeStore` and `SyncedStore`) returns true iff the key was present
with a non-null value before the call; a key stored as `null` is reported
exactly like an absent key. -/
theorem claim_C9_unset_return (contents : Rec) (st : SyncedStore.State) (key : String) :
    (SyspurposeStore.unset contents key).1
      = decide (Rec.get contents key ≠ Val.vnull) ∧
    (SyncedStore.unset st key).1
      = decide (Rec.get st.local_contents key ≠ Val.vnull) :=
  ⟨SyspurposeStore.unset_fst_store contents key, SyncedStore.unset_fst_session st key⟩

/-- Claim C10 is false in its `set` half: setting an already-present `null`
key to `null` leaves the stored contents unchanged but still marks the
session dirty (because `org is None` triggers the dirty branch). -/
theorem claim_C10_counterexample :
    (SyncedStore.set ⟨[("role", Val.vnull)], false⟩ "role" Val.vnull).2.changed = true ∧
    (SyncedStore.set ⟨[("role", Val.vnull)], false⟩ "role" Val.vnull).2.local_contents
      = [("role", Val.vnull)] := by decide

/-- Claim C10 (amended): `SyncedStore.unset` sets the dirty flag
unconditionally — in particular a session whose only operation was unset of
a missing key gets `False` back from `unset` yet still triggers `sync()` in
`finish()` — while `SyncedStore.set` sets the dirty flag exactly when it
returns true, i.e. when the new value differs from the old `.get` value or
the old value was `null` (so a `null`-over-`null` set also marks dirty,
despite not changing the stored contents). -/
theorem claim_C10_dirty_flag (st : SyncedStore.State) (key : String) (v : Val)
    (remote cached : Rec) :
    (SyncedStore.unset st key).2.changed = true ∧
    (Dict.lookup st.local_contents key = none →
      (SyncedStore.unset st key).1 = false ∧
      (SyncedStore.finish (SyncedStore.unset st key).2 remote cached).1 = true) ∧
    (SyncedStore.set st key v).2.changed = ((SyncedStore.set st key v).1 || st.changed) ∧
    (SyncedStore.set st key v).1 =
      (decide (Rec.get st.local_contents key ≠ v)
        || decide (Rec.get st.local_contents key = Val.vnull)) := by
  refine ⟨SyncedStore.unset_changed st key, ?_, ?_, rfl⟩
  · intro hmiss
    constructor
    · rw [SyncedStore.unset_fst_session, Rec.get, hmiss]
      simp
    · rw [SyncedStore.finish_fst, SyncedStore.unset_changed]
  · cases hcond : (decide (Rec.get st.local_contents key ≠ v)
      || decide (Rec.get st.local_contents key = Val.vnull)) <;>
      simp [SyncedStore.set, hcond]

/-- Witness for `claim_C10_dirty_flag` at concrete inputs: the unset
scenario on an empty store (missing key), and the set conjuncts at a store
whose key is already present with value `null`, set again to `null` — the
case where the dirty flag is set although the stored contents do not
change. -/
theorem claim_C10_dirty_flag_witness :
    (SyncedStore.unset ⟨[], false⟩ "role").2.changed = true ∧
    Dict.lookup ([] : Rec) "role" = none ∧
    (SyncedStore.unset ⟨[], false⟩ "role").1 = false ∧
    (SyncedStore.finish (SyncedStore.unset ⟨[], false⟩ "role").2 [] []).1 = true ∧
    (SyncedStore.set ⟨[("role", Val.vnull)], false⟩ "role" Val.vnull).2.changed
      = ((SyncedStore.set ⟨[("role", Val.vnull)], false⟩ "role" Val.vnull).1 || false) ∧
    (SyncedStore.set ⟨[("role", Val.vnull)], false⟩ "role" Val.vnull).1 =
      (decide (Rec.get [("role", Val.vnull)] "role" ≠ Val.vnull)
        || decide (Rec.get [("role", Val.vnull)] "role" = Val.vnull)) :=
  ⟨(claim_C10_dirty_flag ⟨[], false⟩ "role" (Val.vstr "x") [] []).1,
   rfl,
   ((claim_C10_dirty_flag ⟨[], false⟩ "role" (Val.vstr "x") [] []).2.1 rfl).1,
   ((claim_C10_dirty_flag ⟨[], false⟩ "role" (Val.vstr "x") [] []).2.1 rfl).2,
   (claim_C10_dirty_flag ⟨[("role", Val.vnull)], false⟩ "role" Val.vnull [] []).2.2.1,
   (claim_C10_dirty_flag ⟨[("role", Val.vnull)], false⟩ "role" Val.vnull [] []).2.2.2⟩

/-! ## The pull cache: `StatusCache.load_status` (cache.py) -/

namespace StatusCache

/-- The outcome of the `_sync_with_server` call inside `load_status`: the
fetched status, or one of the exception classes `load_status` catches.
`otherError` stands for any exception matched by no `except` clause (it
propagates to the caller). -/
inductive RemoteOutcome where
  | ok (v : Val)
  | sslError
  | authError
  | expiredIdCert
  | connectionError
  | rateLimit
  | socketError
  | restlibError
  | otherError
deriving Repr, DecidableEq

/-- The recorded `self.last_error`: `None` initially, `False` after a
success, or the caught exception. -/
inductive LastError where
  | noneYet
  | falseVal
  | caught (e : RemoteOutcome)
deriving Repr, DecidableEq

/-- The state of a `StatusCache`: the in-memory mirror `self.server_status`,
the content of the on-disk cache file (`none` when the file is absent), and
`self.last_error`. -/
structure State where
  server_status : Option Val
  disk : Option Val
  last_error : LastError
deriving Repr, DecidableEq

/-- `StatusCache._cache_exists()`: true when the in-memory mirror holds a
value, otherwise when the cache file exists. -/
def cache_exists (st : State) : Bool :=
  st.server_status.isSome || st.disk.isSome

/-- `StatusCache._read_cache()`: prefer the in-memory mirror; when it is
empty, load the disk cache into it and return it (a missing or unparsable
file reads as `None`). -/
def read_cache (st : State) : Option Val × State :=
  match st.server_status with
  | some s => (some s, st)
  | none => (st.disk, { st with server_status := st.disk })

/-- Embeds `StatusCache.load_status(uep, uuid)`, the remote call abstracted
by its outcome. Success mirrors the status and writes the cache file (the
threaded `write_cache` modelled as completed); SSL, authentication and
expired-identity errors return `None` with no disk fallback; connection,
rate-limit and socket errors fall back to `_read_cache()` when
`_cache_exists()`; a Restlib error (old server) returns `None`; any other
exception propagates (`Except.error`). -/
def load_status (st : State) (outcome : RemoteOutcome) :
    Except Unit (Option Val × State) :=
  match outcome with
  | .ok v =>
      .ok (some v, { server_status := some v, disk := some v,
                     last_error := .falseVal })
  | .sslError => .ok (none, { st with last_error := .caught outcome })
  | .authError => .ok (none, { st with last_error := .caught outcome })
  | .expiredIdCert => .ok (none, { st with last_error := .caught outcome })
  | .connectionError | .rateLimit | .socketError =>
      let st' : State := { st with last_error := .caught outcome }
      if cache_exists st' = false then .ok (none, st')
      else .ok (read_cache st')
  | .restlibError => .ok (none, { st with last_error := .caught outcome })
  | .otherError => .error ()

/-- Mirror consistency: when the in-memory mirror holds a status, it is the
one persisted in the cache file. Every reachable state satisfies it: the
mirror is only filled from a successful fetch that is also written to disk,
or from the disk itself (`load_status_preserves_consistent`), and a fresh
`StatusCache.__init__` state (`server_status = None`) satisfies it for any
disk content. -/
def Consistent (st : State) : Prop :=
  st.server_status = none ∨ ∃ s, st.server_status = some s ∧ st.disk = some s

theorem load_status_preserves_consistent (st : State) (o : RemoteOutcome)
    (hc : Consistent st) {res : Option Val × State}
    (h : load_status st o = .ok res) : Consistent res.2 := by
  cases o with
  | ok v =>
      cases h
      exact Or.inr ⟨v, rfl, rfl⟩
  | sslError => cases h; exact hc
  | authError => cases h; exact hc
  | expiredIdCert => cases h; exact hc
  | restlibError => cases h; exact hc
  | otherError => cases h
  | connectionError | rateLimit | socketError =>
      rw [load_status] at h
      split at h
      · cases h
        exact hc
      · rw [read_cache] at h
        rcases hs : st.server_status with _ | s
        · rw [hs] at h
          cases h
          rcases hd : st.disk with _ | d
          · exact Or.inl (by simp [hs, hd])
          · exact Or.inr ⟨d, by simp [hs, hd], by simp [hd]⟩
        · rw [hs] at h
          cases h
          rcases hc with hnone | ⟨s', hs', hd'⟩
          · rw [hs] at hnone
            cases hnone
          · rw [hs] at hs'
            refine Or.inr ⟨s, rfl, ?_⟩
            show st.disk = some s
            rw [hd', Option.some.inj hs']

end StatusCache

/-- Connectivity-failure equation for `load_status`: the shared handler of
connection, rate-limit and socket errors. -/
theorem StatusCache.load_status_conn (st : StatusCache.State) (o : StatusCache.RemoteOutcome)
    (ho : o = StatusCache.RemoteOutcome.connectionError ∨
          o = StatusCache.RemoteOutcome.rateLimit ∨
          o = StatusCache.RemoteOutcome.socketError) :
    StatusCache.load_status st o =
      (if StatusCache.cache_exists { st with last_error := .caught o } = false
       then .ok (none, { st with last_error := .caught o })
       else .ok (StatusCache.read_cache { st with last_error := .caught o })) := by
  rcases ho with rfl | rfl | rfl <;> rfl

/-- Unfolding equation for `read_cache`. -/
theorem StatusCache.read_cache_eq (st : StatusCache.State) :
    StatusCache.read_cache st =
      (match st.server_status with
       | some s => (some s, st)
       | none => (st.disk, { st with server_status := st.disk })) := rfl

/-- `read_cache` with an empty in-memory mirror loads the disk cache. -/
theorem StatusCache.read_cache_none {st : StatusCache.State}
    (hs : st.server_status = none) :
    StatusCache.read_cache st = (st.disk, { st with server_status := st.disk }) := by
  rw [StatusCache.read_cache_eq, hs]

/-- `read_cache` with a filled in-memory mirror returns it untouched. -/
theorem StatusCache.read_cache_some {st : StatusCache.State} {s : Val}
    (hs : st.server_status = some s) :
    StatusCache.read_cache st = (some s, st) := by
  rw [StatusCache.read_cache_eq, hs]

/-- Claim C5 (confirmed): on any mirror-consistent `StatusCache` state, an
authentication/identity failure (SSL, authentication, expired identity)
makes `load_status` return `None` with no disk fallback; a network-level
failure (connection, rate limit, socket) makes it return the persisted
cached record when the disk cache exists and `None` when it does not; and
in all these cases the call returns normally (`Except.ok`) instead of
raising. -/
theorem claim_C5_pull_failure_policy (st : StatusCache.State)
    (hc : StatusCache.Consistent st) :
    (∀ o, (o = StatusCache.RemoteOutcome.sslError ∨
           o = StatusCache.RemoteOutcome.authError ∨
           o = StatusCache.RemoteOutcome.expiredIdCert) →
      ∃ st', StatusCache.load_status st o = .ok (none, st')) ∧
    (∀ o, (o = StatusCache.RemoteOutcome.connectionError ∨
           o = StatusCache.RemoteOutcome.rateLimit ∨
           o = StatusCache.RemoteOutcome.socketError) →
      (∀ c, st.disk = some c →
        ∃ st', StatusCache.load_status st o = .ok (some c, st')) ∧
      (st.disk = none →
        ∃ st', StatusCache.load_status st o = .ok (none, st'))) := by
  constructor
  · rintro o (rfl | rfl | rfl) <;> exact ⟨_, rfl⟩
  · intro o ho
    rw [StatusCache.load_status_conn st o ho]
    constructor
    · intro c hdisk
      have hex : StatusCache.cache_exists { st with last_error := .caught o } = true := by
        show (st.server_status.isSome || st.disk.isSome) = true
        rw [hdisk]
        simp
      rw [if_neg (by simp [hex])]
      rcases hs : st.server_status with _ | s
      · refine ⟨{ st with last_error := .caught o, server_status := st.disk }, ?_⟩
        rw [StatusCache.read_cache_eq]
        simp [hdisk]
      · have hsc : s = c := by
          rcases hc with hnone | ⟨s', hs', hd'⟩
          · rw [hs] at hnone
            cases hnone
          · rw [hs] at hs'
            rw [hdisk] at hd'
            rw [Option.some.inj hs', Option.some.inj hd']
        refine ⟨{ st with last_error := .caught o }, ?_⟩
        rw [StatusCache.read_cache_eq]
        simp [hs, hsc]
    · intro hdisk
      have hsnone : st.server_status = none := by
        rcases hc with hnone | ⟨s', _, hd'⟩
        · exact hnone
        · rw [hdisk] at hd'
          cases hd'
      have hex : StatusCache.cache_exists { st with last_error := .caught o } = false := by
        show (st.server_status.isSome || st.disk.isSome) = false
        rw [hdisk, hsnone]
        rfl
      rw [if_pos hex]
      exact ⟨_, rfl⟩

/-- Witness for `claim_C5_pull_failure_policy` at a concrete
mirror-consistent state (empty mirror, cached record on disk). -/
theorem claim_C5_pull_failure_policy_witness :
    StatusCache.Consistent ⟨none, some (Val.vstr "cached"), .noneYet⟩ ∧
    ((∀ o, (o = StatusCache.RemoteOutcome.sslError ∨
           o = StatusCache.RemoteOutcome.authError ∨
           o = StatusCache.RemoteOutcome.expiredIdCert) →
      ∃ st', StatusCache.load_status ⟨none, some (Val.vstr "cached"), .noneYet⟩ o
        = .ok (none, st')) ∧
    (∀ o, (o = StatusCache.RemoteOutcome.connectionError ∨
           o = StatusCache.RemoteOutcome.rateLimit ∨
           o = StatusCache.RemoteOutcome.socketError) →
      (∀ c, (⟨none, some (Val.vstr "cached"), .noneYet⟩ : StatusCache.State).disk = some c →
        ∃ st', StatusCache.load_status ⟨none, some (Val.vstr "cached"), .noneYet⟩ o
          = .ok (some c, st')) ∧
      ((⟨none, some (Val.vstr "cached"), .noneYet⟩ : StatusCache.State).disk = none →
        ∃ st', StatusCache.load_status ⟨none, some (Val.vstr "cached"), .noneYet⟩ o
          = .ok (none, st')))) :=
  ⟨Or.inl rfl,
   claim_C5_pull_failure_policy ⟨none, some (Val.vstr "cached"), .noneYet⟩ (Or.inl rfl)⟩

/-! ## The push cache: `CacheManager.update_check` (cache.py) -/

namespace CacheManager

/-- The outcome of `_sync_with_server` during a push: success, a structured
`RestlibException` (with its payload), or any other exception. -/
inductive SyncOutcome where
  | ok
  | restlibError (msg : String)
  | otherError (msg : String)
deriving Repr, DecidableEq

/-- What `update_check` can raise: the `RestlibException` re-raised
verbatim, or the single generic wrapper (`Exception(_("Error updating
system data on the server, see /var/log/rhsm/rhsm.log for more
details."))`) that masks every other failure. -/
inductive PushError where
  | restlib (msg : String)
  | generic
deriving Repr, DecidableEq

/-- Embeds `CacheManager.update_check(uep, consumer_uuid, force)`. `cache`
is the persisted cache entry (`none` when the file is absent), `current`
the collection's current `to_dict()` value, `hasChanged` the subclass's
`has_changed()` result, and `outcome` what `_sync_with_server` does when
invoked. A falsy `consumer_uuid` (Python `None` or `""`) returns 0; no
change and no force returns 0 without invoking the sync; otherwise the
sync runs and on success `write_cache()` persists `current` and 1 is
returned. -/
def update_check (cache : Option Val) (current : Val) (consumer_uuid : Option String)
    (hasChanged force : Bool) (outcome : SyncOutcome) :
    Except PushError (Nat × Option Val) :=
  if consumer_uuid = none ∨ consumer_uuid = some "" then
    .ok (0, cache)
  else if hasChanged || force then
    match outcome with
    | .ok => .ok (1, some current)
    | .restlibError msg => .error (.restlib msg)
    | .otherError _ => .error .generic
  else
    .ok (0, cache)

end CacheManager

/-- Claim C6 (confirmed): `update_check` returns 0 (raising nothing and
leaving the cache entry untouched) when no consumer identity is supplied —
whatever the server would do — and likewise when `has_changed()` is false
and `force` unset (the sync outcome is never consulted); when a push is
attempted, a Restlib error is re-raised unchanged, any other exception
becomes the single generic error, and a successful push persists the new
cache entry and returns 1. -/
theorem claim_C6_push_update_check (cache : Option Val) (current : Val)
    (uuid : Option String) (hasChanged force : Bool)
    (hu1 : uuid ≠ none) (hu2 : uuid ≠ some "") :
    (∀ o, CacheManager.update_check cache current none hasChanged force o
        = .ok (0, cache)) ∧
    (hasChanged = false → force = false →
      ∀ o, CacheManager.update_check cache current uuid hasChanged force o
        = .ok (0, cache)) ∧
    ((hasChanged || force) = true →
      (∀ msg, CacheManager.update_check cache current uuid hasChanged force
          (.restlibError msg) = .error (.restlib msg)) ∧
      (∀ msg, CacheManager.update_check cache current uuid hasChanged force
          (.otherError msg) = .error .generic) ∧
      CacheManager.update_check cache current uuid hasChanged force .ok
        = .ok (1, some current)) := by
  have hfalsy : ¬ (uuid = none ∨ uuid = some "") := by
    rintro (h | h)
    · exact hu1 h
    · exact hu2 h
  refine ⟨?_, ?_, ?_⟩
  · intro o
    rw [CacheManager.update_check.eq_def, if_pos (Or.inl rfl)]
  · intro hch hf o
    rw [CacheManager.update_check.eq_def, if_neg hfalsy, hch, hf, if_neg (by simp)]
  · intro hcf
    refine ⟨?_, ?_, ?_⟩
    · intro msg
      rw [CacheManager.update_check.eq_def, if_neg hfalsy, if_pos hcf]
    · intro msg
      rw [CacheManager.update_check.eq_def, if_neg hfalsy, if_pos hcf]
    · rw [CacheManager.update_check.eq_def, if_neg hfalsy, if_pos hcf]

/-- Witness for `claim_C6_push_update_check` at a concrete input. -/
theorem claim_C6_push_update_check_witness :
    ((some "uuid1" : Option String) ≠ none) ∧ ((some "uuid1" : Option String) ≠ some "") ∧
    ((∀ o, CacheManager.update_check none (Val.vstr "facts") none true false o
        = .ok (0, none)) ∧
    ((true : Bool) = false → (false : Bool) = false →
      ∀ o, CacheManager.update_check none (Val.vstr "facts") (some "uuid1") true false o
        = .ok (0, none)) ∧
    ((true || false) = true →
      (∀ msg, CacheManager.update_check none (Val.vstr "facts") (some "uuid1") true false
          (.restlibError msg) = .error (.restlib msg)) ∧
      (∀ msg, CacheManager.update_check none (Val.vstr "facts") (some "uuid1") true false
          (.otherError msg) = .error .generic) ∧
      CacheManager.update_check none (Val.vstr "facts") (some "uuid1") true false .ok
        = .ok (1, some (Val.vstr "facts")))) :=
  ⟨by decide, by decide,
   claim_C6_push_update_check none (Val.vstr "facts") (some "uuid1") true false
     (by decide) (by decide)⟩

/-! ## The installed-products push cache: `has_changed` (cache.py) -/

namespace InstalledProductsManager

/-- The per-product payload `_setup_installed` builds for each installed
product certificate. -/
structure ProductData where
  productId : String
  productName : String
  version : String
  arch : String
deriving Repr, DecidableEq

/-- The parsed content of the installed-products cache file: the values at
keys `"products"` and `"tags"`; `none` models the `KeyError` taken on an
older cache format. -/
structure CacheContent where
  products : Option (Dict ProductData)
  tags : Option (List String)
deriving Repr, DecidableEq

/-- Equality of the Python `set`s built from two lists. -/
def setEq (a b : List String) : Bool :=
  a.all (fun x => decide (x ∈ b)) && b.all (fun x => decide (x ∈ a))

/-- Embeds `InstalledProductsManager.has_changed()`: true when no cache file
exists or it lacks the `products`/`tags` keys; otherwise true iff the key
counts differ, the products mappings differ (deep `dict` comparison), or
the tag sets differ. -/
def has_changed (cacheFile : Option CacheContent) (installed : Dict ProductData)
    (tags : List String) : Bool :=
  match cacheFile with
  | none => true
  | some cached =>
      match cached.products, cached.tags with
      | some products, some ctags =>
          if products.length ≠ installed.length then true
          else if ¬ Dict.beqv products installed then true
          else if ¬ setEq ctags tags then true
          else false
      | _, _ => true

end InstalledProductsManager

/-- Claim C8 (confirmed): the installed-products `has_changed()` returns
true when no cache file exists, and does a deep comparison: whenever the
cached products record and the current one disagree at any key — even with
identical key counts — it returns true. -/
theorem claim_C8_deep_compare (cached : InstalledProductsManager.CacheContent)
    (products installed : Dict InstalledProductsManager.ProductData)
    (tags : List String) (k : String)
    (hp : cached.products = some products)
    (hk : Dict.lookup products k ≠ Dict.lookup installed k) :
    InstalledProductsManager.has_changed none installed tags = true ∧
    InstalledProductsManager.has_changed (some cached) installed tags = true := by
  refine ⟨rfl, ?_⟩
  have hbeqv : ¬ Dict.beqv products installed = true := fun hb =>
    hk ((Dict.beqv_iff products installed).mp hb k)
  rw [InstalledProductsManager.has_changed, hp]
  cases ht : cached.tags with
  | none => rfl
  | some ctags =>
      show (if products.length ≠ installed.length then true
            else if ¬ Dict.beqv products installed = true then true
            else if ¬ InstalledProductsManager.setEq ctags tags = true then true
            else false) = true
      by_cases hlen : products.length ≠ installed.length
      · rw [if_pos hlen]
      · rw [if_neg hlen, if_pos hbeqv]

/-- Witness for `claim_C8_deep_compare`: two records with the same two keys
where a single product's version changed. -/
theorem claim_C8_deep_compare_witness :
    (InstalledProductsManager.CacheContent.mk
        (some [("p1", ⟨"p1", "Prod One", "1.0", "x86_64"⟩),
               ("p2", ⟨"p2", "Prod Two", "2.0", "x86_64"⟩)])
        (some ["tagA"])).products
      = some [("p1", ⟨"p1", "Prod One", "1.0", "x86_64"⟩),
              ("p2", ⟨"p2", "Prod Two", "2.0", "x86_64"⟩)] ∧
    Dict.lookup [("p1", (⟨"p1", "Prod One", "1.0", "x86_64"⟩ :
          InstalledProductsManager.ProductData)),
        ("p2", ⟨"p2", "Prod Two", "2.0", "x86_64"⟩)] "p1"
      ≠ Dict.lookup [("p1", (⟨"p1", "Prod One", "1.1", "x86_64"⟩ :
          InstalledProductsManager.ProductData)),
        ("p2", ⟨"p2", "Prod Two", "2.0", "x86_64"⟩)] "p1" ∧
    (InstalledProductsManager.has_changed none
        [("p1", ⟨"p1", "Prod One", "1.1", "x86_64"⟩),
         ("p2", ⟨"p2", "Prod Two", "2.0", "x86_64"⟩)] ["tagA"] = true ∧
     InstalledProductsManager.has_changed
        (some (InstalledProductsManager.CacheContent.mk
          (some [("p1", ⟨"p1", "Prod One", "1.0", "x86_64"⟩),
                 ("p2", ⟨"p2", "Prod Two", "2.0", "x86_64"⟩)])
          (some ["tagA"])))
        [("p1", ⟨"p1", "Prod One", "1.1", "x86_64"⟩),
         ("p2", ⟨"p2", "Prod Two", "2.0", "x86_64"⟩)] ["tagA"] = true) :=
  ⟨by decide, by decide,
   claim_C8_deep_compare
     (InstalledProductsManager.CacheContent.mk
       (some [("p1", ⟨"p1", "Prod One", "1.0", "x86_64"⟩),
              ("p2", ⟨"p2", "Prod Two", "2.0", "x86_64"⟩)])
       (some ["tagA"]))
     [("p1", ⟨"p1", "Prod One", "1.0", "x86_64"⟩),
      ("p2", ⟨"p2", "Prod Two", "2.0", "x86_64"⟩)]
     [("p1", ⟨"p1", "Prod One", "1.1", "x86_64"⟩),
      ("p2", ⟨"p2", "Prod Two", "2.0", "x86_64"⟩)]
     ["tagA"] "p1" (by decide) (by decide)⟩
